import Mathlib

/-!
Verification of the adstxt_updater reconciliation engine: a shallow
embedding of the repository's JavaScript modules (AdsTxtCache.js,
AdsTxtUpdater.js, ConfigWatcher.js, main.js, transformAdsTxt.js) as pure
Lean functions, together with theorems settling the specification's
claims about them.
-/

namespace AdstxtUpdater

/-! ### Coalescing task runner (SingleInstancePromise)

Modelled from the spec: the repository imports `SingleInstancePromise.js`
from several modules but that file itself is not among the sources, so the
three-state machine below follows the spec's section 4.1 word for word:
`Idle` / `Running` / `RunningWithRerunPending`; `trigger()` in Idle starts
the work and moves to Running; in Running it moves to
RunningWithRerunPending without starting work; in RunningWithRerunPending
it is a no-op; on completion Running returns to Idle while
RunningWithRerunPending moves to Running and immediately starts the work
again.  Each operation returns the next state paired with how many new
executions of the wrapped work it starts. -/

inductive SipState where
  | idle
  | running
  | runningRerunPending
deriving DecidableEq, Repr

/-- Modelled from the spec: the `trigger()` transition of section 4.1,
returning the next state and the number of executions started. -/
def trigger : SipState → SipState × Nat
  | .idle => (.running, 1)
  | .running => (.runningRerunPending, 0)
  | .runningRerunPending => (.runningRerunPending, 0)

/-- Modelled from the spec: the work-completion transition of section 4.1.
Completing in Running returns to Idle; completing in
RunningWithRerunPending moves to Running and starts one rerun.  (Completion
in Idle cannot occur, as completions are only delivered to started work.) -/
def onWorkComplete : SipState → SipState × Nat
  | .idle => (.idle, 0)
  | .running => (.idle, 0)
  | .runningRerunPending => (.running, 1)

/-- A burst of `n` consecutive `trigger()` calls, summing the executions
started. -/
def triggerN : Nat → SipState → SipState × Nat
  | 0, s => (s, 0)
  | n + 1, s =>
    let t := trigger s
    let r := triggerN n t.1
    (r.1, t.2 + r.2)

/-! ### Fetch cache (AdsTxtCache.fetchAdsTxt)

Embedding of `src/AdsTxtCache.js`.  The cache entry for the requested url,
the two `Date.now()` readings (the freshness check and the `fetchTime`
captured before the network call) and the network outcome are explicit
parameters.  A network-level rejection of `fetch` is a `TypeError` in the
Deno runtime, the one exception class the method swallows; any other
exception is re-thrown and is outside this model. -/

structure CachedAdsTxt where
  content : String
  fetchTime : Int
deriving DecidableEq, Repr

structure FetchAdsTxtResult where
  fresh : Bool
  content : String
deriving DecidableEq, Repr

/-- Outcome of the `fetch(url)` call: a transport-level failure
(`TypeError`), or a response with its `ok` flag (status in the 2xx range)
and body text. -/
inductive FetchOutcome where
  | networkError
  | response (ok : Bool) (body : String)
deriving DecidableEq, Repr

/-- What one `fetchAdsTxt` call produces: its result (or the thrown error
message), the cache entry for the url afterwards, and whether a network
fetch was attempted. -/
structure FetchStep where
  result : Except String FetchAdsTxtResult
  cacheAfter : Option CachedAdsTxt
  networkFetch : Bool
deriving Repr

/-- The error message thrown when the fetch fails and the cache is empty;
it carries the requested url. -/
def fetchFailedMsg (url : String) : String :=
  "Failed to fetch \"" ++ url ++ "\" and no existing content was found in the cache."

/-- Line 27 of AdsTxtCache.js:
`(existing || false) && Date.now() - existing.fetchTime < cacheDurationMs`. -/
def isCacheFresh (existing : Option CachedAdsTxt) (now cacheDurationMs : Int) : Bool :=
  match existing with
  | none => false
  | some e => decide (now - e.fetchTime < cacheDurationMs)

/-- Embedding of `AdsTxtCache.fetchAdsTxt` (lines 25-57): if the entry is
not fresh, attempt a fetch; a 2xx response replaces the entry and makes the
result fresh, while a network error or non-2xx response leaves the entry
as it was; finally, with no entry at all the call throws, otherwise it
returns the entry's content with the computed freshness. -/
def fetchAdsTxt (url : String) (existing : Option CachedAdsTxt)
    (nowCheck nowFetch cacheDurationMs : Int) (outcome : FetchOutcome) : FetchStep :=
  let fresh0 := isCacheFresh existing nowCheck cacheDurationMs
  let afterFetch :=
    if fresh0 then (existing, fresh0, false)
    else
      match outcome with
      | .response true body => (some ⟨body, nowFetch⟩, true, true)
      | .response false _ => (existing, fresh0, true)
      | .networkError => (existing, fresh0, true)
  match afterFetch.1 with
  | none => ⟨.error (fetchFailedMsg url), none, afterFetch.2.2⟩
  | some e => ⟨.ok ⟨afterFetch.2.1, e.content⟩, afterFetch.1, afterFetch.2.2⟩

/-- The JavaScript default of the `cacheDurationMs` parameter:
`60 * 60 * 1000` milliseconds (one hour). -/
def defaultCacheDurationMs : Int := 60 * 60 * 1000

/-- Embedding of a `fetchAdsTxt(url)` call that leaves the cache-duration
argument to its default. -/
def fetchAdsTxtNoDurationArg (url : String) (existing : Option CachedAdsTxt)
    (nowCheck nowFetch : Int) (outcome : FetchOutcome) : FetchStep :=
  fetchAdsTxt url existing nowCheck nowFetch defaultCacheDurationMs outcome

/-- The cache contract of spec section 4.2, written from the spec's words:
fresh hit without a network call; miss with a 2xx response stores and
returns fresh content; miss with a failed fetch serves the prior entry of
any age as stale, or fails with an error carrying the key when none
exists. -/
def cacheContract (url : String) (existing : Option CachedAdsTxt)
    (nowCheck nowFetch cacheDurationMs : Int) (outcome : FetchOutcome)
    (step : FetchStep) : Prop :=
  (∀ e, existing = some e → nowCheck - e.fetchTime < cacheDurationMs →
    step = ⟨.ok ⟨true, e.content⟩, existing, false⟩) ∧
  (isCacheFresh existing nowCheck cacheDurationMs = false →
    step.networkFetch = true ∧
    (∀ body, outcome = .response true body →
      step = ⟨.ok ⟨true, body⟩, some ⟨body, nowFetch⟩, true⟩) ∧
    ((outcome = .networkError ∨ ∃ b, outcome = .response false b) →
      (∀ e, existing = some e → step = ⟨.ok ⟨false, e.content⟩, existing, true⟩) ∧
      (existing = none → step = ⟨.error (fetchFailedMsg url), none, true⟩)))

/-! ### Text transform (transformAdsTxt.js)

Embedding of `transformAdsTxt` / `stripVariables`.  A line is matched
against the JavaScript regular expression `^(?<key>\S+)\s?=`: the greedy
`\S+` backtracks from the longest non-whitespace prefix down to length one
until the optional single whitespace and the `=` sign follow, so the
captured key is the longest non-whitespace prefix with that property. -/

/-- Character class `\s` of the JavaScript regular expression engine
(the space separators relevant to ads.txt content; the remaining exotic
Unicode space separators are omitted as they cannot occur in the claims'
inputs). -/
def jsWhitespace (c : Char) : Bool :=
  c = ' ' || c = '\t' || c = '\n' || c = '\r' ||
    c = Char.ofNat 11 || c = Char.ofNat 12 || c = Char.ofNat 160 || c = Char.ofNat 0xFEFF

/-- Does `\s?=` match at the start of the remaining characters? -/
def eqFollows : List Char → Bool
  | '=' :: _ => true
  | w :: '=' :: _ => jsWhitespace w
  | _ => false

/-- Backtracking of the greedy `\S+`: try the prefix lengths `n, n-1, …, 1`
and return the first (longest) whose remainder starts with `\s?=`. -/
def keyMatchBack (cs : List Char) : Nat → Option (List Char)
  | 0 => none
  | k + 1 => if eqFollows (cs.drop (k + 1)) then some (cs.take (k + 1)) else keyMatchBack cs k

/-- The capture of `line.match(/^(?<key>\S+)\s?=/)`, or none when the line
does not match. -/
def keyMatchJs (cs : List Char) : Option (List Char) :=
  keyMatchBack cs (cs.takeWhile (fun c => !jsWhitespace c)).length

/-- `line.startsWith("#")`: the line's first character is `#`. -/
def startsWithHash (line : String) : Bool :=
  match line.data with
  | '#' :: _ => true
  | _ => false

/-- Splitting on the newline character, as `content.split("\n")` does
(structurally, so that concrete inputs evaluate). -/
def splitLinesAux : List Char → List Char → List String
  | [], acc => [String.mk acc.reverse]
  | c :: rest, acc =>
    if c = '\n' then String.mk acc.reverse :: splitLinesAux rest []
    else splitLinesAux rest (c :: acc)

/-- The lines of a string, `content.split("\n")`. -/
def splitLines (content : String) : List String :=
  splitLinesAux content.data []

/-- ASCII lower-casing of one character (sufficient for the
case-insensitivity the claim speaks about). -/
def asciiLower (c : Char) : Char :=
  if 'A' ≤ c ∧ c ≤ 'Z' then Char.ofNat (c.toNat + 32) else c

/-- ASCII lower-casing of a string. -/
def asciiLowerStr (s : String) : String :=
  String.mk (s.data.map asciiLower)

/-- The `strip_variables` option value: a boolean or a list of keys. -/
inductive StripVariablesOption where
  | bool (b : Bool)
  | keys (ks : List String)
deriving Repr

/-- `TransformAdsTxtOptions` of transformAdsTxt.js; the field defaults to
`false` when absent, which `none` models. -/
structure TransformAdsTxtOptions where
  strip_variables : Option StripVariablesOption := none

/-- The filter predicate of `stripVariables` (lines 27-35): keep comment
lines, keep lines that do not match the key-value shape, strip every
matching line when the key list is empty, otherwise strip exactly the
lines whose key is `includes`-contained (case-sensitively) in the list. -/
def keepLine (removeVariables : List String) (line : String) : Bool :=
  if startsWithHash line then true
  else
    match keyMatchJs line.data with
    | none => true
    | some key =>
      if removeVariables.length = 0 then false
      else if key.isEmpty then true
      else if removeVariables.contains (String.mk key) then false
      else true

/-- `stripVariables(content, removeVariables)`: split on newline, filter,
join with newline. -/
def stripVariables (content : String) (removeVariables : List String) : String :=
  String.intercalate "\n" ((splitLines content).filter (keepLine removeVariables))

/-- `transformAdsTxt(content, {strip_variables = false})`: a falsy option
leaves the content untouched; `true` strips all variable declarations; an
array (truthy even when empty) strips the listed keys, an empty array
stripping all. -/
def transformAdsTxt (content : String) (options : TransformAdsTxtOptions) : String :=
  match options.strip_variables with
  | none => content
  | some (.bool false) => content
  | some (.bool true) => stripVariables content []
  | some (.keys ks) => stripVariables content ks

/-- Which keys the options ask to strip: `none` when stripping is off,
`some []` to strip every declaration, `some ks` to strip the listed keys. -/
def stripRequest (options : TransformAdsTxtOptions) : Option (List String) :=
  match options.strip_variables with
  | none => none
  | some (.bool false) => none
  | some (.bool true) => some []
  | some (.keys ks) => some ks

/-- The amended transform contract, written from the claim's words with
case-sensitive matching: comment lines and lines not of the `key = value`
shape are always kept; a declaration line is removed exactly when the
allow-list is empty (strip all) or contains its key case-sensitively. -/
def keepLineAmended (allow : List String) (line : String) : Bool :=
  match keyMatchJs line.data with
  | none => true
  | some key =>
    if startsWithHash line then true
    else !(allow.isEmpty || allow.contains (String.mk key))

/-- The amended transform: filter with the amended keep predicate,
preserving the remaining lines verbatim and in order. -/
def transformAmended (content : String) (options : TransformAdsTxtOptions) : String :=
  match stripRequest options with
  | none => content
  | some allow => String.intercalate "\n" ((splitLines content).filter (keepLineAmended allow))

/-- The claim's transform as literally stated, with the allow-list matched
case-insensitively; used to exhibit where the code diverges from it. -/
def keepLineClaimCI (allow : List String) (line : String) : Bool :=
  match keyMatchJs line.data with
  | none => true
  | some key =>
    if startsWithHash line then true
    else !(allow.isEmpty || allow.any (fun v => asciiLowerStr v == asciiLowerStr (String.mk key)))

/-- The transform as the claim literally states it (case-insensitive
allow-list matching). -/
def transformClaimCI (content : String) (options : TransformAdsTxtOptions) : String :=
  match stripRequest options with
  | none => content
  | some allow => String.intercalate "\n" ((splitLines content).filter (keepLineClaimCI allow))

/-! ### Rebuild-cycle content assembly (AdsTxtUpdater.#getAdsTxtsContent)

Embedding of lines 193-272 of AdsTxtUpdater.js.  Each configured source
yields either a (possibly transformed) fetch result or an error; the
results arrive in configuration order (`Promise.all` preserves order). -/

/-- One entry of the per-source `results` array: the source url and
either the fetch result or the caught error. -/
structure SourceFetchResult where
  url : String
  result : Except String FetchAdsTxtResult

/-- The partition loop (lines 232-247): a single pass pushing each result
onto `failedUrls`, `failedButCachedUrls` and `successfulResults`. -/
def partitionResults (results : List SourceFetchResult) :
    List String × List String × List (String × String) :=
  results.foldl
    (fun acc r =>
      match r.result with
      | .ok fr =>
        (acc.1,
          if fr.fresh then acc.2.1 else acc.2.1 ++ [r.url],
          acc.2.2 ++ [(r.url, fr.content)])
      | .error _ => (acc.1 ++ [r.url], acc.2.1, acc.2.2))
    ([], [], [])

/-- The url lines of an Error or Warning block exactly as the code writes
them: `content += ` with the template `# - ${url}` for each url (note: no
newline terminator inside the loop). -/
def urlListMarkers (urls : List String) : String :=
  String.join (urls.map (fun url => "# - " ++ url))

/-- The assembly of the generated file (lines 249-271): timestamp header,
Error block when some url failed, Warning block when some url was served
stale, then one section per successful source. -/
def assembleAdsTxt (timestamp : String) (results : List SourceFetchResult) : String :=
  let p := partitionResults results
  let c1 := "# This file was generated on " ++ timestamp ++ "\n\n"
  let c2 := c1 ++
    (if p.1.length > 0 then
      "# Error: The following urls failed and are not included:\n" ++ urlListMarkers p.1 ++ "\n\n"
    else "")
  let c3 := c2 ++
    (if p.2.1.length > 0 then
      "# Warning: The following urls failed, but were cached and are still included:\n" ++
        urlListMarkers p.2.1 ++ "\n\n"
    else "")
  c3 ++ String.join (p.2.2.map (fun r => "# Fetched from " ++ r.1 ++ "\n" ++ r.2 ++ "\n\n"))

/-- A `sources` entry of the configuration: a bare url string or an object
with a url and an optional transform. -/
inductive SourceConfigEntry where
  | url (source : String)
  | obj (source : String) (transform : Option TransformAdsTxtOptions)

/-- Lines 204-211: a bare string is wrapped into `{ source }`. -/
def normalizeSourceConfig : SourceConfigEntry → String × Option TransformAdsTxtOptions
  | .url s => (s, none)
  | .obj s t => (s, t)

/-- Lines 212-228, the per-source work: call `fetchAdsTxt(config.source)`
on the shared cache — with the url as its only argument — and apply the
source's transform to a successful result. -/
def updaterFetchSource (entry : SourceConfigEntry) (cached : Option CachedAdsTxt)
    (nowCheck nowFetch : Int) (outcome : FetchOutcome) : SourceFetchResult :=
  let n := normalizeSourceConfig entry
  let step := fetchAdsTxtNoDurationArg n.1 cached nowCheck nowFetch outcome
  match step.result, n.2 with
  | .ok r, some t => ⟨n.1, .ok ⟨r.fresh, transformAdsTxt r.content t⟩⟩
  | .ok r, none => ⟨n.1, .ok r⟩
  | .error e, _ => ⟨n.1, .error e⟩

/-- The AdsTxtConfig of AdsTxtUpdater.js. -/
structure AdsTxtConfig where
  updateInterval : Option String := none
  destination : String
  sources : List SourceConfigEntry

/-- The warning returned for an empty source list (line 198). -/
def noSourcesWarning : String :=
  "# Warning: The configuration file contains no sources urls.\n"

/-- The per-source results of one rebuild cycle, in configuration order;
the cache entry and network outcome for each url are explicit inputs. -/
def cycleResults (config : AdsTxtConfig) (cacheState : String → Option CachedAdsTxt)
    (outcomes : String → FetchOutcome) (nowCheck nowFetch : Int) : List SourceFetchResult :=
  config.sources.map (fun entry =>
    let src := (normalizeSourceConfig entry).1
    updaterFetchSource entry (cacheState src) nowCheck nowFetch (outcomes src))

/-- `#getAdsTxtsContent` (lines 193-272): the empty-sources warning, or the
assembled content of all per-source results. -/
def getAdsTxtsContent (config : AdsTxtConfig) (timestamp : String)
    (cacheState : String → Option CachedAdsTxt) (outcomes : String → FetchOutcome)
    (nowCheck nowFetch : Int) : String :=
  if config.sources.length = 0 then noSourcesWarning
  else assembleAdsTxt timestamp (cycleResults config cacheState outcomes nowCheck nowFetch)

/-! Spec-side view of the assembly (section 4.3 step 3), used for the
structural claim: the three partitions recovered directly by order-
preserving filters, and the output as one concatenation. -/

/-- The urls of the sources that failed outright. -/
def failedUrlsOf (rs : List SourceFetchResult) : List String :=
  rs.filterMap (fun r =>
    match r.result with
    | .error _ => some r.url
    | .ok _ => none)

/-- The urls of the sources served stale from the cache. -/
def staleUrlsOf (rs : List SourceFetchResult) : List String :=
  rs.filterMap (fun r =>
    match r.result with
    | .ok fr => if fr.fresh then none else some r.url
    | .error _ => none)

/-- Url and content of every successful source (fresh or stale), in
original order. -/
def successesOf (rs : List SourceFetchResult) : List (String × String) :=
  rs.filterMap (fun r =>
    match r.result with
    | .ok fr => some (r.url, fr.content)
    | .error _ => none)

/-- The generation-timestamp header comment. -/
def specTimestampHeader (timestamp : String) : String :=
  "# This file was generated on " ++ timestamp ++ "\n\n"

/-- The Error block: present exactly when some source failed. -/
def specErrorBlock (rs : List SourceFetchResult) : String :=
  if failedUrlsOf rs = [] then ""
  else "# Error: The following urls failed and are not included:\n" ++
    urlListMarkers (failedUrlsOf rs) ++ "\n\n"

/-- The Warning block: present exactly when some source was served stale. -/
def specWarningBlock (rs : List SourceFetchResult) : String :=
  if staleUrlsOf rs = [] then ""
  else "# Warning: The following urls failed, but were cached and are still included:\n" ++
    urlListMarkers (staleUrlsOf rs) ++ "\n\n"

/-- One content section: a comment naming the source url, the (possibly
transformed) content, and a blank-line separator. -/
def specSourceSection (s : String × String) : String :=
  "# Fetched from " ++ s.1 ++ "\n" ++ s.2 ++ "\n\n"

/-- The assembled output as the spec describes it: header, Error block,
Warning block, then the successful sources' sections in original
configuration order (failed sources contribute none). -/
def specAssembleAdsTxt (timestamp : String) (rs : List SourceFetchResult) : String :=
  specTimestampHeader timestamp ++ specErrorBlock rs ++ specWarningBlock rs ++
    String.join ((successesOf rs).map specSourceSection)

/-! ### Destination write-back (AdsTxtUpdater.#updateAdsTxtInstance)

Embedding of lines 55-76: read the destination (a NotFound leaves the
current content `null`, any other read error is re-thrown and aborts the
cycle), then write the desired content only when it differs. -/

/-- Outcome of `Deno.readTextFile` on the destination. -/
inductive ReadFileResult where
  | found (content : String)
  | notFound
  | ioError
deriving DecidableEq, Repr

/-- Lines 62-69: `currentContent` stays `null` when the file does not
exist; any other exception propagates. -/
def readCurrentContent : ReadFileResult → Except Unit (Option String)
  | .found c => .ok (some c)
  | .notFound => .ok none
  | .ioError => .error ()

/-- Line 70, `currentContent != desiredContent`: loose inequality between
`null` or a string and a string. -/
def contentsDiffer (current : Option String) (desired : String) : Bool :=
  match current with
  | none => true
  | some c => c != desired

/-- Reading a destination modelled as `Option String` (the file's content,
or none when it does not exist). -/
def readDestination : Option String → ReadFileResult
  | some c => .found c
  | none => .notFound

/-- One write-back step over the modelled destination: returns the
destination content afterwards and whether a write was performed. -/
def updateCycle (desired : String) (disk : Option String) : Option String × Bool :=
  match readCurrentContent (readDestination disk) with
  | .error _ => (disk, false)
  | .ok current =>
    if contentsDiffer current desired then (some desired, true) else (disk, false)

/-! ### Update-interval parsing (AdsTxtUpdater constructor, lines 80-101)

The constructor matches `config.updateInterval || "24h"` against the
regular expression `/(?<amount>\d+)(?<unit>[smhd])/` — unanchored, so the
engine scans for the leftmost digit run that is immediately followed by a
unit letter — and scales the parsed integer by the unit; without a match
the 24-hour default stands.  (`isFinite(amount)` always holds for the
matched integers modelled here.) -/

/-- The `[smhd]` unit character class. -/
def intervalUnitChar (c : Char) : Bool :=
  c = 's' || c = 'm' || c = 'h' || c = 'd'

/-- `parseInt` of a run of decimal digit characters. -/
def digitCharsToNat (ds : List Char) : Nat :=
  ds.foldl (fun acc c => acc * 10 + (c.toNat - 48)) 0

/-- The leftmost match of `/(?<amount>\d+)(?<unit>[smhd])/`: its integer
amount and unit letter.  Scanning restarts after a digit run not followed
by a unit letter; a digit position inside an already-failed run fails the
same way, so recursing one character at a time is equivalent. -/
def findIntervalMatch : List Char → Option (Nat × Char)
  | [] => none
  | c :: rest =>
    if c.isDigit then
      match rest.dropWhile Char.isDigit with
      | u :: _ =>
        if intervalUnitChar u then
          some (digitCharsToNat (c :: rest.takeWhile Char.isDigit), u)
        else findIntervalMatch rest
      | [] => findIntervalMatch rest
    else findIntervalMatch rest

/-- The 24-hour default, `24 * 60 * 60 * 1000` milliseconds. -/
def defaultUpdateIntervalMs : Nat := 24 * 60 * 60 * 1000

/-- Lines 80-97: the interval in milliseconds derived from the optional
`updateInterval` string (an absent or empty string falls back to "24h"). -/
def parseUpdateInterval (updateInterval : Option String) : Nat :=
  let intervalStr :=
    match updateInterval with
    | some s => if s = "" then "24h" else s
    | none => "24h"
  match findIntervalMatch intervalStr.data with
  | some au =>
    if au.2 = 's' then au.1 * 1000
    else if au.2 = 'm' then au.1 * (60 * 1000)
    else if au.2 = 'h' then au.1 * (60 * 60 * 1000)
    else if au.2 = 'd' then au.1 * (24 * 60 * 60 * 1000)
    else au.1
  | none => defaultUpdateIntervalMs

/-! ### Process entry (main.js) -/

/-- The message printed when no configuration paths are given. -/
def noConfigsMessage : String :=
  "No configuration files have been provided, provide one or more paths to configuration files via the arguments."

/-- What starting the process observably does: what it printed, the exit
code it exited with (if it exited), the resolved configuration path of
each ConfigWatcher created, and the identity of the AdsTxtCache each
watcher was given (the single shared cache has identity 0). -/
structure ProcessStart where
  printed : Option String
  exitCode : Option Nat
  watcherConfigPaths : List String
  watcherCacheIds : List Nat
deriving Repr

/-- `run(paths)` (lines 8-18): one shared AdsTxtCache, then one
ConfigWatcher per path, each built from `path.resolve(arg)` and the shared
cache. -/
def runMain (resolvePath : String → String) (paths : List String) : List (String × Nat) :=
  paths.map (fun arg => (resolvePath arg, 0))

/-- The `import.meta.main` block (lines 20-29): with no arguments it
prints the explanatory message and calls `Deno.exit()`, which exits with
status code 0; otherwise it calls `run(Deno.args)`. -/
def mainEntry (resolvePath : String → String) (args : List String) : ProcessStart :=
  if args.length = 0 then
    { printed := some noConfigsMessage, exitCode := some 0,
      watcherConfigPaths := [], watcherCacheIds := [] }
  else
    let ws := runMain resolvePath args
    { printed := none, exitCode := none,
      watcherConfigPaths := ws.map Prod.fst, watcherCacheIds := ws.map Prod.snd }

/-! ### Supervisor reload (ConfigWatcher.#loadConfigInstance)

Embedding of lines 96-119 of ConfigWatcher.js.  The cycle reads and parses
the configuration document; only after a successful parse does it destruct
the held updaters, clear the set and build one updater per parsed entry
(a non-array document is wrapped into a one-element array).  An updater is
identified here by the configuration it was built from. -/

/-- A parsed YAML configuration document: one destination object or an
array of them. -/
inductive ParsedYamlConfig where
  | single (c : AdsTxtConfig)
  | array (cs : List AdsTxtConfig)

/-- What one reload cycle did: the held updater set afterwards, the
updaters whose destruction began, the updaters newly created, and whether
the cycle aborted with an error. -/
structure ReloadCycleResult where
  updatersAfter : List AdsTxtConfig
  destructedUpdaters : List AdsTxtConfig
  createdUpdaters : List AdsTxtConfig
  failed : Bool

/-- One run of the reload cycle, over the read-and-parse outcome and the
currently held updaters.  A destructed watcher returns immediately; a
read or parse failure aborts before the updater set is touched. -/
def loadConfigCycle (destructed : Bool) (readAndParse : Except Unit ParsedYamlConfig)
    (held : List AdsTxtConfig) : ReloadCycleResult :=
  if destructed then ⟨held, [], [], false⟩
  else
    match readAndParse with
    | .error _ => ⟨held, [], [], true⟩
    | .ok parsed =>
      let configs :=
        match parsed with
        | .array cs => cs
        | .single c => [c]
      ⟨configs, held, configs, false⟩

/-! ## Helper lemmas -/

theorem triggerN_pending (n : Nat) :
    triggerN n SipState.runningRerunPending = (SipState.runningRerunPending, 0) := by
  induction n with
  | zero => rfl
  | succ n ih => simp [triggerN, trigger, ih]

theorem keyMatchBack_shape (cs : List Char) (n : Nat) (key : List Char)
    (h : keyMatchBack cs n = some key) : ∃ k, key = cs.take (k + 1) := by
  induction n with
  | zero => simp [keyMatchBack] at h
  | succ n ih =>
    by_cases he : eqFollows (cs.drop (n + 1)) = true
    · refine ⟨n, ?_⟩
      simp [keyMatchBack, he] at h
      exact h.symm
    · simp [keyMatchBack, he] at h
      exact ih h

theorem keyMatchJs_key_ne_nil (cs : List Char) (key : List Char)
    (h : keyMatchJs cs = some key) : key ≠ [] := by
  cases cs with
  | nil => simp [keyMatchJs, keyMatchBack] at h
  | cons c rest =>
    obtain ⟨k, rfl⟩ := keyMatchBack_shape _ _ _ h
    simp [List.take]

theorem keepLine_eq_amended (ks : List String) (line : String) :
    keepLine ks line = keepLineAmended ks line := by
  unfold keepLine keepLineAmended
  by_cases hc : startsWithHash line = true
  · cases hm : keyMatchJs line.data <;> simp [hc]
  · simp only [Bool.not_eq_true] at hc
    cases hm : keyMatchJs line.data with
    | none => simp [hc]
    | some key =>
      have hkey : key ≠ [] := keyMatchJs_key_ne_nil _ _ hm
      by_cases hlen : ks.length = 0
      · have : ks = [] := List.length_eq_zero.mp hlen
        subst this
        simp [hc]
      · have hks : ks ≠ [] := fun h => hlen (by simp [h])
        have hne : ks.isEmpty = false := by
          cases ks with
          | nil => exact absurd rfl hks
          | cons a l => rfl
        have hne2 : key.isEmpty = false := by
          cases key with
          | nil => exact absurd rfl hkey
          | cons a l => rfl
        by_cases hin : ks.contains (String.mk key) = true <;>
          simp [hc, hlen, hne, hne2, hin]

theorem dropWhile_append_of_all (p : Char → Bool) (l1 : List Char) (u : Char) (g : List Char)
    (h1 : ∀ c ∈ l1, p c = true) (h2 : p u = false) :
    (l1 ++ u :: g).dropWhile p = u :: g := by
  induction l1 with
  | nil => simp [List.dropWhile, h2]
  | cons c rest ih =>
    have hc : p c = true := h1 c (by simp)
    simp only [List.cons_append, List.dropWhile, hc]
    exact ih (fun x hx => h1 x (by simp [hx]))

theorem takeWhile_append_of_all (p : Char → Bool) (l1 : List Char) (u : Char) (g : List Char)
    (h1 : ∀ c ∈ l1, p c = true) (h2 : p u = false) :
    (l1 ++ u :: g).takeWhile p = l1 := by
  induction l1 with
  | nil => simp [List.takeWhile, h2]
  | cons c rest ih =>
    have hc : p c = true := h1 c (by simp)
    simp only [List.cons_append, List.takeWhile, hc]
    simpa using ih (fun x hx => h1 x (by simp [hx]))

theorem intervalUnitChar_not_digit (u : Char) (h : intervalUnitChar u = true) :
    u.isDigit = false := by
  simp only [intervalUnitChar, Bool.or_eq_true, decide_eq_true_eq] at h
  rcases h with ((rfl | rfl) | rfl) | rfl <;> decide

theorem findIntervalMatch_digits_unit (ds : List Char) (u : Char) (g : List Char)
    (h1 : ds ≠ []) (h2 : ∀ c ∈ ds, c.isDigit = true) (h3 : intervalUnitChar u = true) :
    findIntervalMatch (ds ++ u :: g) = some (digitCharsToNat ds, u) := by
  cases ds with
  | nil => exact absurd rfl h1
  | cons d rest =>
    have hu : u.isDigit = false := intervalUnitChar_not_digit u h3
    have hd : d.isDigit = true := h2 d (by simp)
    have hrest : ∀ c ∈ rest, c.isDigit = true := fun c hc => h2 c (by simp [hc])
    simp only [List.cons_append, findIntervalMatch, hd, if_true, List.append_eq,
      dropWhile_append_of_all Char.isDigit rest u g hrest hu,
      takeWhile_append_of_all Char.isDigit rest u g hrest hu, h3]

theorem partition_foldl_general (rs : List SourceFetchResult)
    (acc : List String × List String × List (String × String)) :
    rs.foldl
      (fun acc r =>
        match r.result with
        | .ok fr =>
          (acc.1,
            if fr.fresh then acc.2.1 else acc.2.1 ++ [r.url],
            acc.2.2 ++ [(r.url, fr.content)])
        | .error _ => (acc.1 ++ [r.url], acc.2.1, acc.2.2))
      acc =
      (acc.1 ++ failedUrlsOf rs, acc.2.1 ++ staleUrlsOf rs, acc.2.2 ++ successesOf rs) := by
  induction rs generalizing acc with
  | nil => simp [failedUrlsOf, staleUrlsOf, successesOf]
  | cons r rest ih =>
    cases hr : r.result with
    | ok fr =>
      cases hf : fr.fresh <;>
        simp [List.foldl_cons, hr, ih, failedUrlsOf, staleUrlsOf, successesOf, hf,
          List.filterMap_cons]
    | error e =>
      simp [List.foldl_cons, hr, ih, failedUrlsOf, staleUrlsOf, successesOf,
        List.filterMap_cons]

theorem partitionResults_eq (rs : List SourceFetchResult) :
    partitionResults rs = (failedUrlsOf rs, staleUrlsOf rs, successesOf rs) := by
  simpa using partition_foldl_general rs ([], [], [])

theorem specErrorBlock_empty_iff (rs : List SourceFetchResult) :
    (specErrorBlock rs = "" ↔ failedUrlsOf rs = []) := by
  unfold specErrorBlock
  by_cases h : failedUrlsOf rs = []
  · simp [h]
  · simp only [h, if_false, iff_false]
    intro he
    have := congrArg String.length he
    simp [String.length_append] at this
    exact absurd this.1.1 (by decide)
  -- the Error header has positive length, so the block cannot be empty

theorem specWarningBlock_empty_iff (rs : List SourceFetchResult) :
    (specWarningBlock rs = "" ↔ staleUrlsOf rs = []) := by
  unfold specWarningBlock
  by_cases h : staleUrlsOf rs = []
  · simp [h]
  · simp only [h, if_false, iff_false]
    intro he
    have := congrArg String.length he
    simp [String.length_append] at this
    exact absurd this.1.1 (by decide)

theorem assembleAdsTxt_eq_spec (timestamp : String) (rs : List SourceFetchResult) :
    assembleAdsTxt timestamp rs = specAssembleAdsTxt timestamp rs := by
  unfold assembleAdsTxt specAssembleAdsTxt specTimestampHeader specErrorBlock specWarningBlock
    specSourceSection
  rw [partitionResults_eq]
  by_cases h1 : failedUrlsOf rs = [] <;> by_cases h2 : staleUrlsOf rs = [] <;>
    simp [h1, h2, List.length_pos, String.append_assoc]

/-! ## Claim theorems -/

/-- C1: for every sequence of trigger calls issued while the coalescing
task runner is Running, exactly one additional execution starts once the
current one completes — regardless of how many triggers arrived — and a
trigger in the Idle state starts exactly one execution. -/
theorem taskRunner_coalesces (n : Nat) (h : 1 ≤ n) :
    (triggerN n SipState.running).1 = SipState.runningRerunPending ∧
    (triggerN n SipState.running).2 = 0 ∧
    onWorkComplete (triggerN n SipState.running).1 = (SipState.running, 1) ∧
    onWorkComplete SipState.running = (SipState.idle, 0) ∧
    trigger SipState.idle = (SipState.running, 1) := by
  obtain ⟨m, rfl⟩ : ∃ m, n = m + 1 := ⟨n - 1, (Nat.succ_pred_eq_of_pos h).symm⟩
  refine ⟨?_, ?_, ?_, rfl, rfl⟩ <;> simp [triggerN, trigger, triggerN_pending, onWorkComplete]

/-- Witness for C1 at a burst of three triggers. -/
theorem taskRunner_coalesces_three :
    (triggerN 3 SipState.running).1 = SipState.runningRerunPending ∧
    (triggerN 3 SipState.running).2 = 0 ∧
    onWorkComplete (triggerN 3 SipState.running).1 = (SipState.running, 1) ∧
    onWorkComplete SipState.running = (SipState.idle, 0) ∧
    trigger SipState.idle = (SipState.running, 1) :=
  taskRunner_coalesces 3 (by decide)

/-- C2: fetchAdsTxt satisfies the cache contract: fresh hit without a
network call, miss-with-2xx stores and returns fresh, miss-with-failure
serves the prior entry of any age as stale or fails with an error carrying
the key. -/
theorem fetchAdsTxt_meets_cacheContract (url : String) (existing : Option CachedAdsTxt)
    (nowCheck nowFetch cacheDurationMs : Int) (outcome : FetchOutcome) :
    cacheContract url existing nowCheck nowFetch cacheDurationMs outcome
      (fetchAdsTxt url existing nowCheck nowFetch cacheDurationMs outcome) := by
  constructor
  · rintro e rfl hlt
    simp [fetchAdsTxt, isCacheFresh, hlt]
  · intro hfresh
    refine ⟨?_, ?_, ?_⟩
    · cases outcome with
      | networkError => cases existing <;> simp [fetchAdsTxt, hfresh]
      | response ok body => cases ok <;> cases existing <;> simp [fetchAdsTxt, hfresh]
    · rintro body rfl
      cases existing <;> simp [fetchAdsTxt, hfresh]
    · rintro (rfl | ⟨b, rfl⟩) <;>
        exact ⟨fun e he => by subst he; simp [fetchAdsTxt, hfresh],
          fun he => by subst he; simp [fetchAdsTxt, hfresh, isCacheFresh]⟩

/-- C3 failing input: with two failed sources the Error block writes
`# - u1# - u2` — both markers glued on one line, because the loop appends
`# - ${url}` without a newline — and the Warning block glues its urls the
same way; the claim's one-url-per-line listing does not hold. -/
theorem assembleAdsTxt_glued_url_lines :
    assembleAdsTxt "TS" [⟨"u1", .error "e1"⟩, ⟨"u2", .error "e2"⟩] =
      "# This file was generated on TS\n\n" ++
        "# Error: The following urls failed and are not included:\n# - u1# - u2\n\n" ∧
    assembleAdsTxt "TS" [⟨"u1", .ok ⟨false, "c1"⟩⟩, ⟨"u2", .ok ⟨false, "c2"⟩⟩] =
      "# This file was generated on TS\n\n" ++
        "# Warning: The following urls failed, but were cached and are still included:\n" ++
        "# - u1# - u2\n\n" ++
        "# Fetched from u1\nc1\n\n# Fetched from u2\nc2\n\n" := by
  constructor <;> rfl

/-- C4: for a non-empty source list the generated content is exactly the
spec-shaped assembly — timestamp header, then the Error block (present
exactly when some source failed), then the Warning block (present exactly
when some source was served stale), then one section per successful source
in original configuration order, each a url comment, the content, and a
blank-line separator; failed sources contribute no section. -/
theorem getAdsTxtsContent_structure (config : AdsTxtConfig) (timestamp : String)
    (cacheState : String → Option CachedAdsTxt) (outcomes : String → FetchOutcome)
    (nowCheck nowFetch : Int) (h : config.sources ≠ []) :
    getAdsTxtsContent config timestamp cacheState outcomes nowCheck nowFetch =
      specAssembleAdsTxt timestamp (cycleResults config cacheState outcomes nowCheck nowFetch) ∧
    (specErrorBlock (cycleResults config cacheState outcomes nowCheck nowFetch) = "" ↔
      failedUrlsOf (cycleResults config cacheState outcomes nowCheck nowFetch) = []) ∧
    (specWarningBlock (cycleResults config cacheState outcomes nowCheck nowFetch) = "" ↔
      staleUrlsOf (cycleResults config cacheState outcomes nowCheck nowFetch) = []) := by
  refine ⟨?_, specErrorBlock_empty_iff _, specWarningBlock_empty_iff _⟩
  have hlen : ¬config.sources.length = 0 := by
    simpa [List.length_eq_zero] using h
  simp [getAdsTxtsContent, hlen, assembleAdsTxt_eq_spec]

/-- Witness for C4 at the spec's three-source example: A fails outright,
B is served stale from the cache, C fetches fresh. -/
theorem getAdsTxtsContent_structure_example :
    getAdsTxtsContent
        { destination := "/ads.txt", sources := [.url "A", .url "B", .url "C"] } "TS"
        (fun u => if u = "B" then some ⟨"bc", 0⟩ else none)
        (fun u => if u = "C" then .response true "cc" else .networkError)
        7200000 7200000 =
      specAssembleAdsTxt "TS"
        (cycleResults
          { destination := "/ads.txt", sources := [.url "A", .url "B", .url "C"] }
          (fun u => if u = "B" then some ⟨"bc", 0⟩ else none)
          (fun u => if u = "C" then .response true "cc" else .networkError)
          7200000 7200000) ∧
    (specErrorBlock
        (cycleResults
          { destination := "/ads.txt", sources := [.url "A", .url "B", .url "C"] }
          (fun u => if u = "B" then some ⟨"bc", 0⟩ else none)
          (fun u => if u = "C" then .response true "cc" else .networkError)
          7200000 7200000) = "" ↔
      failedUrlsOf
        (cycleResults
          { destination := "/ads.txt", sources := [.url "A", .url "B", .url "C"] }
          (fun u => if u = "B" then some ⟨"bc", 0⟩ else none)
          (fun u => if u = "C" then .response true "cc" else .networkError)
          7200000 7200000) = []) ∧
    (specWarningBlock
        (cycleResults
          { destination := "/ads.txt", sources := [.url "A", .url "B", .url "C"] }
          (fun u => if u = "B" then some ⟨"bc", 0⟩ else none)
          (fun u => if u = "C" then .response true "cc" else .networkError)
          7200000 7200000) = "" ↔
      staleUrlsOf
        (cycleResults
          { destination := "/ads.txt", sources := [.url "A", .url "B", .url "C"] }
          (fun u => if u = "B" then some ⟨"bc", 0⟩ else none)
          (fun u => if u = "C" then .response true "cc" else .networkError)
          7200000 7200000) = []) :=
  getAdsTxtsContent_structure _ _ _ _ _ _ (by simp)

/-- C5: the write-back step writes exactly when the on-disk content
differs byte-for-byte from the desired content (a missing file counts as
differing and is not a failure, while any other read error aborts the
cycle), and a second cycle over unchanged inputs changes nothing and
performs no write. -/
theorem updateCycle_write_iff_differs (desired : String) (disk : Option String) :
    ((updateCycle desired disk).2 = true ↔ disk ≠ some desired) ∧
    (updateCycle desired disk).1 = some desired ∧
    updateCycle desired (updateCycle desired disk).1 = (some desired, false) ∧
    readCurrentContent ReadFileResult.notFound = Except.ok none ∧
    readCurrentContent ReadFileResult.ioError = Except.error () := by
  have h1 : ∀ c, updateCycle desired (some c) =
      if c = desired then (some c, false) else (some desired, true) := by
    intro c
    by_cases hc : c = desired <;>
      simp [updateCycle, readDestination, readCurrentContent, contentsDiffer, bne, hc]
  cases disk with
  | none =>
    refine ⟨by simp [updateCycle, readDestination, readCurrentContent, contentsDiffer], ?_, ?_, rfl, rfl⟩
    · simp [updateCycle, readDestination, readCurrentContent, contentsDiffer]
    · simp [updateCycle, readDestination, readCurrentContent, contentsDiffer, h1]
  | some c =>
    by_cases hc : c = desired
    · subst hc
      refine ⟨by simp [h1], by simp [h1], by simp [h1], rfl, rfl⟩
    · refine ⟨?_, ?_, ?_, rfl, rfl⟩
      · simp [h1, hc]
      · simp [h1, hc]
      · simp [h1, hc]

/-- C6: interval parsing maps "3s" to 3000 ms and "2h" to 7,200,000 ms; an
absent or empty updateInterval and an unparsable string all yield the
86,400,000 ms 24-hour default; and trailing garbage after the matched
amount and unit does not change the result. -/
theorem updateInterval_parsing (ds : List Char) (u : Char) (g : List Char)
    (h1 : ds ≠ []) (h2 : ∀ c ∈ ds, c.isDigit = true) (h3 : intervalUnitChar u = true) :
    parseUpdateInterval (some "3s") = 3000 ∧
    parseUpdateInterval (some "2h") = 7200000 ∧
    parseUpdateInterval none = 86400000 ∧
    parseUpdateInterval (some "") = 86400000 ∧
    (∀ s : String, findIntervalMatch s.data = none → parseUpdateInterval (some s) = 86400000) ∧
    parseUpdateInterval (some (String.mk (ds ++ u :: g))) =
      parseUpdateInterval (some (String.mk (ds ++ [u]))) := by
  refine ⟨by decide, by decide, by decide, by decide, ?_, ?_⟩
  · intro s hs
    by_cases hempty : s = ""
    · subst hempty
      decide
    · simp [parseUpdateInterval, hempty, hs, defaultUpdateIntervalMs]
  · have hne : ¬String.mk (ds ++ u :: g) = "" := by
      intro hcontra
      have hdata : ds ++ u :: g = ([] : List Char) := congrArg String.data hcontra
      simp at hdata
    have hne2 : ¬String.mk (ds ++ [u]) = "" := by
      intro hcontra
      have hdata : ds ++ [u] = ([] : List Char) := congrArg String.data hcontra
      simp at hdata
    have hm1 : findIntervalMatch (String.mk (ds ++ u :: g)).data =
        some (digitCharsToNat ds, u) :=
      findIntervalMatch_digits_unit ds u g h1 h2 h3
    have hm2 : findIntervalMatch (String.mk (ds ++ [u])).data =
        some (digitCharsToNat ds, u) :=
      findIntervalMatch_digits_unit ds u [] h1 h2 h3
    simp [parseUpdateInterval, hne, hne2, hm1, hm2]

/-- Witness for C6 at the amount 12, the unit m and the trailing
garbage "!x". -/
theorem updateInterval_parsing_examples :
    parseUpdateInterval (some "3s") = 3000 ∧
    parseUpdateInterval (some "2h") = 7200000 ∧
    parseUpdateInterval none = 86400000 ∧
    parseUpdateInterval (some "") = 86400000 ∧
    (∀ s : String, findIntervalMatch s.data = none → parseUpdateInterval (some s) = 86400000) ∧
    parseUpdateInterval (some (String.mk (['1', '2'] ++ 'm' :: ['!', 'x']))) =
      parseUpdateInterval (some (String.mk (['1', '2'] ++ ['m']))) :=
  updateInterval_parsing ['1', '2'] 'm' ['!', 'x'] (by decide) (by decide) (by decide)

/-- C7 counterexample: the allow-list is matched case-sensitively, not
case-insensitively as claimed: with allow-list ["ABC"] the code keeps the
line `abc = 1`, while the claim's case-insensitive transform removes it. -/
theorem transform_not_case_insensitive :
    transformAdsTxt "abc = 1" ⟨some (.keys ["ABC"])⟩ = "abc = 1" ∧
    transformClaimCI "abc = 1" ⟨some (.keys ["ABC"])⟩ = "" := by
  constructor <;> rfl

/-- C7 amended: the transform removes exactly the `key = value`
declaration lines whose key is contained case-sensitively in the
allow-list (a true or empty value strips all declarations), while comment
lines and lines not matching the declaration shape are preserved verbatim
and in order. -/
theorem transform_strips_case_sensitively (content : String)
    (options : TransformAdsTxtOptions) :
    transformAdsTxt content options = transformAmended content options := by
  obtain ⟨sv⟩ := options
  cases sv with
  | none => rfl
  | some v =>
    cases v with
    | bool b =>
      cases b with
      | false => rfl
      | true =>
        have hf : keepLine [] = keepLineAmended [] := funext (keepLine_eq_amended [])
        simp [transformAdsTxt, transformAmended, stripRequest, stripVariables, hf]
    | keys ks =>
      have hf : keepLine ks = keepLineAmended ks := funext (keepLine_eq_amended ks)
      simp [transformAdsTxt, transformAmended, stripRequest, stripVariables, hf]

/-- C8 counterexample: with zero arguments the process prints the
explanatory message but exits with status code 0 — `Deno.exit()` without
an argument — not with a non-zero code as claimed. -/
theorem mainEntry_zero_args_exit_code_zero :
    (mainEntry id []).printed = some noConfigsMessage ∧
    (mainEntry id []).exitCode = some 0 ∧
    ∀ n, (mainEntry id []).exitCode = some n → n = 0 := by
  refine ⟨rfl, rfl, ?_⟩
  intro n h
  simp [mainEntry] at h
  exact h.symm

/-- C8 amended: zero arguments print the explanatory message and exit with
status code 0; with one or more arguments no exit occurs and one
ConfigWatcher is created per argument, on its resolved path, all sharing
the single AdsTxtCache. -/
theorem mainEntry_behaviour (resolvePath : String → String) (a : String) (rest : List String) :
    mainEntry resolvePath [] =
      { printed := some noConfigsMessage, exitCode := some 0,
        watcherConfigPaths := [], watcherCacheIds := [] } ∧
    mainEntry resolvePath (a :: rest) =
      { printed := none, exitCode := none,
        watcherConfigPaths := (a :: rest).map resolvePath,
        watcherCacheIds := (a :: rest).map (fun _ => 0) } := by
  refine ⟨rfl, ?_⟩
  have h1 : (Prod.fst ∘ fun arg => (resolvePath arg, (0 : Nat))) = resolvePath :=
    funext fun _ => rfl
  have h2 : (Prod.snd ∘ fun arg => (resolvePath arg, (0 : Nat))) = (fun _ => (0 : Nat)) :=
    funext fun _ => rfl
  simp [mainEntry, runMain, List.map_map, h1, h2]

/-- C9: a reload cycle whose configuration read/parse fails leaves the
held updater set unchanged — nothing is destructed, nothing removed,
nothing created — and only marks the cycle as failed. -/
theorem configReload_parse_failure_keeps_updaters (held : List AdsTxtConfig) :
    loadConfigCycle false (Except.error ()) held =
      { updatersAfter := held, destructedUpdaters := [], createdUpdaters := [],
        failed := true } := rfl

/-- C10: a fetch issued with the url as its only argument uses the
3,600,000 ms (one hour) default freshness window, and the assembled cycle
content is independent of the destination's configured updateInterval. -/
theorem fetch_defaults_to_one_hour (url : String) (existing : Option CachedAdsTxt)
    (nowCheck nowFetch : Int) (outcome : FetchOutcome) (config : AdsTxtConfig)
    (timestamp : String) (cacheState : String → Option CachedAdsTxt)
    (outcomes : String → FetchOutcome) (i : Option String) :
    defaultCacheDurationMs = 3600000 ∧
    fetchAdsTxtNoDurationArg url existing nowCheck nowFetch outcome =
      fetchAdsTxt url existing nowCheck nowFetch 3600000 outcome ∧
    getAdsTxtsContent { config with updateInterval := i } timestamp cacheState outcomes
        nowCheck nowFetch =
      getAdsTxtsContent config timestamp cacheState outcomes nowCheck nowFetch := by
  refine ⟨by decide, ?_, rfl⟩
  unfold fetchAdsTxtNoDurationArg
  norm_num [defaultCacheDurationMs]

end AdstxtUpdater
